import Mathlib

/-!
Verification development for the Bancor v3 network core (contracts-v3).

The repository ships the BancorNetwork test suite, the IPoolCollection /
IPoolCollectionUpgrader interfaces, CI workflows and a deploy script; the
implementation contracts themselves (BancorNetwork.sol, PoolCollection.sol,
MasterPool.sol, PendingWithdrawals.sol, PoolCollectionUpgrader.sol) are not
part of the source tree.  The definitions below therefore embed the operations
as described by the specification, with the behaviour pinned by the test suite
taking precedence where the two disagree (the relevant test expectations are
cited in the doc comments).  All token amounts are unsigned integers modelled
as Nat; the contracts use u256 and none of the modelled paths can overflow a
mathematical integer, so no modular reduction is needed.
-/

namespace BancorV3

/-- Parts-per-million resolution: fee and deviation unit (1000000 = 100%). -/
def PPM_RESOLUTION : Nat := 1000000

/-- Error kinds exposed by the network core (spec section 6), restricted to
the ones reachable in the modelled fragment, together with the token-level
transfer failure surfaced by the test suite. -/
inductive Err where
  | invalidAddress
  | invalidPool
  | invalidPoolCollection
  | insufficientFlashLoanReturn
  | withdrawalNotAllowed
  | accessDenied
  | networkLiquidityDisabled
  | rateUnstable
  | reentrant
  | depositingDisabled
  | depositLimitExceeded
  | returnAmountTooLow
  | doesNotExist
  | transferExceedsBalance
  deriving DecidableEq, Repr

/-- Modelled from the spec: the math kernel's mul_div_floor(a, b, c) computes
the floor of a*b/c without intermediate overflow.  On Nat this is plain
multiplication followed by division (division by zero yields 0 in Lean; the
modelled call sites never divide by zero on the inputs the theorems use). -/
def mulDivFloor (a b c : Nat) : Nat := a * b / c

/-- A rational rate, as in the contracts' Fraction { n, d }. -/
structure Fraction where
  n : Nat
  d : Nat
  deriving DecidableEq, Repr

/-- Modelled from the spec: the slice of Network/vault state that the
flash-loan protocol of section 4.9 reads and writes.  `stakedBalance` is the
staked balance the fee is credited to: the BT pool's s, or MasterPool's
nt_staked_balance when the borrowed token is NT. -/
structure NetworkState where
  entered : Bool
  vaultBalance : Nat
  stakedBalance : Nat
  flashLoanFeePPM : Nat
  deriving DecidableEq, Repr

/-- Events of the modelled fragment, carrying the context id of the operation
that emitted them (spec section 4.9). -/
inductive Event where
  | flashLoanCompleted (contextId : Nat) (amount : Nat)
  | feesCollected (contextId : Nat) (feeAmount : Nat) (newStakedBalance : Nat)
  deriving DecidableEq, Repr

/-- Flash-loan fee: mul_div_floor(amount, flash_loan_fee_ppm, PPM). -/
def flashLoanFeeAmount (amount feePPM : Nat) : Nat :=
  mulDivFloor amount feePPM PPM_RESOLUTION

/-- Modelled from the spec: BancorNetwork.sol is absent from src/; this is the
flash_loan protocol of section 4.9 with a recipient callback that transfers
`returnAmount` of the borrowed token back to the vault before returning
(the TestFlashLoanRecipient's setAmountToReturn behaviour).  Steps: snapshot
v0; compute the fee; transfer `amount` to the recipient; run the callback;
require vault(BT) >= v0 + fee, else fail insufficientFlashLoanReturn; credit
the fee to the staked balance and emit FlashLoanCompleted and FeesCollected
under the same context id. -/
def flashLoan (s : NetworkState) (contextId amount returnAmount : Nat) :
    Except Err (NetworkState × List Event) :=
  if s.entered then .error .reentrant
  else if s.vaultBalance < amount then .error .transferExceedsBalance
  else
    let v0 := s.vaultBalance
    let fee := flashLoanFeeAmount amount s.flashLoanFeePPM
    let vaultAfter := v0 - amount + returnAmount
    if vaultAfter < v0 + fee then .error .insufficientFlashLoanReturn
    else
      .ok ({ s with vaultBalance := vaultAfter,
                    stakedBalance := s.stakedBalance + fee },
           [Event.flashLoanCompleted contextId amount,
            Event.feesCollected contextId fee (s.stakedBalance + fee)])

/-- C1: after the recipient callback, if the vault balance is short of the
pre-loan snapshot plus the fee — equivalently, the recipient returned less
than amount + fee — the flash loan fails with InsufficientFlashLoanReturn;
whenever the vault balance reaches v0 + fee (overpayment included), the flash
loan succeeds. -/
theorem flashLoan_return_check (s : NetworkState) (ctx amount ret : Nat)
    (hent : s.entered = false) (hamt : amount ≤ s.vaultBalance) :
    (ret < amount + flashLoanFeeAmount amount s.flashLoanFeePPM →
      flashLoan s ctx amount ret = .error .insufficientFlashLoanReturn) ∧
    (amount + flashLoanFeeAmount amount s.flashLoanFeePPM ≤ ret →
      ∃ s' evs, flashLoan s ctx amount ret = .ok (s', evs)) := by
  unfold flashLoan
  rw [hent]
  simp only [Bool.false_eq_true, if_false]
  rw [if_neg (by omega)]
  constructor
  · intro hlt
    rw [if_pos (by omega)]
  · intro hge
    rw [if_neg (by omega)]
    exact ⟨_, _, rfl⟩

/-- Witness for C1: vault 1000, fee ppm 10000 (1%), loan 200 (fee 2): a
return of 201 < 202 is rejected, and a return of 202 is accepted. -/
theorem flashLoan_return_check_witness :
    ((⟨false, 1000, 500, 10000⟩ : NetworkState).entered = false ∧
      200 ≤ (⟨false, 1000, 500, 10000⟩ : NetworkState).vaultBalance) ∧
    flashLoan ⟨false, 1000, 500, 10000⟩ 7 200 201 =
      .error .insufficientFlashLoanReturn ∧
    (∃ s' evs, flashLoan ⟨false, 1000, 500, 10000⟩ 7 200 202 = .ok (s', evs)) := by
  refine ⟨⟨rfl, by decide⟩, ?_, ?_⟩
  · exact (flashLoan_return_check ⟨false, 1000, 500, 10000⟩ 7 200 201 rfl
      (by decide)).1 (by decide)
  · exact (flashLoan_return_check ⟨false, 1000, 500, 10000⟩ 7 200 202 rfl
      (by decide)).2 (by decide)

/-- C7: a successful flash loan charges fee = floor(amount * fee_ppm / PPM),
credits exactly the fee to the staked balance, and emits a FeesCollected
event reporting the fee and the increased staked balance together with a
FlashLoanCompleted event under the same context id. -/
theorem flashLoan_fee_credited (s : NetworkState) (ctx amount ret : Nat)
    (hent : s.entered = false) (hamt : amount ≤ s.vaultBalance)
    (hret : amount + mulDivFloor amount s.flashLoanFeePPM PPM_RESOLUTION ≤ ret) :
    ∃ s' evs, flashLoan s ctx amount ret = .ok (s', evs) ∧
      s'.stakedBalance =
        s.stakedBalance + amount * s.flashLoanFeePPM / PPM_RESOLUTION ∧
      Event.feesCollected ctx (amount * s.flashLoanFeePPM / PPM_RESOLUTION)
        s'.stakedBalance ∈ evs ∧
      Event.flashLoanCompleted ctx amount ∈ evs := by
  unfold flashLoan
  rw [hent]
  simp only [Bool.false_eq_true, if_false]
  rw [if_neg (by omega)]
  rw [if_neg (by
    have : flashLoanFeeAmount amount s.flashLoanFeePPM =
        mulDivFloor amount s.flashLoanFeePPM PPM_RESOLUTION := rfl
    omega)]
  refine ⟨_, _, rfl, rfl, ?_, ?_⟩
  · exact List.mem_cons_of_mem _ (List.mem_singleton.mpr rfl)
  · exact List.mem_cons_self _ _

/-- Witness for C7: vault 1000, fee ppm 10000, loan 200, fee 2, returned
exactly 202. -/
theorem flashLoan_fee_credited_witness :
    ((⟨false, 1000, 500, 10000⟩ : NetworkState).entered = false ∧
      200 ≤ (⟨false, 1000, 500, 10000⟩ : NetworkState).vaultBalance ∧
      200 + mulDivFloor 200 10000 PPM_RESOLUTION ≤ 202) ∧
    ∃ s' evs, flashLoan ⟨false, 1000, 500, 10000⟩ 7 200 202 = .ok (s', evs) ∧
      s'.stakedBalance = 500 + 200 * 10000 / PPM_RESOLUTION ∧
      Event.feesCollected 7 (200 * 10000 / PPM_RESOLUTION) s'.stakedBalance ∈ evs ∧
      Event.flashLoanCompleted 7 200 ∈ evs :=
  ⟨⟨rfl, by decide, by decide⟩,
    flashLoan_fee_credited ⟨false, 1000, 500, 10000⟩ 7 200 202 rfl (by decide)
      (by decide)⟩

/-- Modelled from the spec: a Network mutation other than the outer flash
loan, reduced to the part the reentrancy guard sees — every entry point of
the facade first checks the single reentrancy flag and fails Reentrant when
it is set (spec sections 4.9 and 5); shown here for deposit. -/
def networkDeposit (s : NetworkState) (amount : Nat) : Except Err NetworkState :=
  if s.entered then .error .reentrant
  else .ok { s with vaultBalance := s.vaultBalance + amount }

/-- A Network mutation a flash-loan recipient may attempt from inside the
on_flash_loan callback. -/
inductive NetworkOp where
  | depositOp (amount : Nat)
  | flashLoanOp (contextId amount returnAmount : Nat)
  deriving DecidableEq, Repr

/-- Dispatch of a Network entry point; every branch is protected by the same
reentrancy flag. -/
def runNetworkOp (s : NetworkState) (op : NetworkOp) : Except Err NetworkState :=
  match op with
  | .depositOp amount => networkDeposit s amount
  | .flashLoanOp ctx amount ret => Except.map Prod.fst (flashLoan s ctx amount ret)

/-- Modelled from the spec: a flash loan whose recipient, inside the
on_flash_loan callback, performs `nestedOp` against the Network.  The outer
call holds the reentrancy flag across the callback; the nested entry point
observes the flag, and a callback failure aborts the outer operation. -/
def flashLoanReentering (s : NetworkState) (contextId amount : Nat)
    (nestedOp : NetworkOp) : Except Err (NetworkState × List Event) :=
  if s.entered then .error .reentrant
  else if s.vaultBalance < amount then .error .transferExceedsBalance
  else
    let v0 := s.vaultBalance
    let fee := flashLoanFeeAmount amount s.flashLoanFeePPM
    let s1 : NetworkState := { s with entered := true, vaultBalance := v0 - amount }
    match runNetworkOp s1 nestedOp with
    | .error e => .error e
    | .ok s2 =>
      if s2.vaultBalance < v0 + fee then .error .insufficientFlashLoanReturn
      else
        .ok ({ s2 with entered := false,
                       stakedBalance := s2.stakedBalance + fee },
             [Event.flashLoanCompleted contextId amount,
              Event.feesCollected contextId fee (s2.stakedBalance + fee)])

/-- Transactional semantics of spec section 7: an operation that fails
commits nothing, so the pre-state survives unchanged. -/
def applyFlashLoanReentering (s : NetworkState) (contextId amount : Nat)
    (nestedOp : NetworkOp) : NetworkState :=
  match flashLoanReentering s contextId amount nestedOp with
  | .ok (s', _) => s'
  | .error _ => s

/-- C6: reentering the Network during a flash-loan recipient callback never
succeeds: whatever Network mutation the recipient attempts inside
on_flash_loan, the nested call fails Reentrant, the outer flash loan reverts
with that error, and the committed state — all balances included — is
unchanged. -/
theorem flashLoan_reentrancy_rejected (s : NetworkState) (ctx amount : Nat)
    (nestedOp : NetworkOp) (hent : s.entered = false)
    (hamt : amount ≤ s.vaultBalance) :
    flashLoanReentering s ctx amount nestedOp = .error .reentrant ∧
    applyFlashLoanReentering s ctx amount nestedOp = s := by
  have hrun : ∀ s1 : NetworkState, s1.entered = true →
      runNetworkOp s1 nestedOp = .error .reentrant := by
    intro s1 h1
    cases nestedOp with
    | depositOp amount => simp [runNetworkOp, networkDeposit, h1]
    | flashLoanOp c a r => simp [runNetworkOp, flashLoan, h1, Except.map]
  have hmain : flashLoanReentering s ctx amount nestedOp = .error .reentrant := by
    unfold flashLoanReentering
    rw [hent]
    simp only [Bool.false_eq_true, if_false]
    rw [if_neg (by omega)]
    rw [hrun _ rfl]
  exact ⟨hmain, by unfold applyFlashLoanReentering; rw [hmain]⟩

/-- Witness for C6: a recipient that tries to deposit 5 from inside the
callback of a 200-token flash loan. -/
theorem flashLoan_reentrancy_rejected_witness :
    ((⟨false, 1000, 500, 10000⟩ : NetworkState).entered = false ∧
      200 ≤ (⟨false, 1000, 500, 10000⟩ : NetworkState).vaultBalance) ∧
    flashLoanReentering ⟨false, 1000, 500, 10000⟩ 7 200 (.depositOp 5) =
      .error .reentrant ∧
    applyFlashLoanReentering ⟨false, 1000, 500, 10000⟩ 7 200 (.depositOp 5) =
      ⟨false, 1000, 500, 10000⟩ :=
  ⟨⟨rfl, by decide⟩,
    flashLoan_reentrancy_rejected ⟨false, 1000, 500, 10000⟩ 7 200 (.depositOp 5)
      rfl (by decide)⟩

/-- A pending withdrawal request (spec section 3): created when the provider
hands its pool tokens into custody at init_withdrawal. -/
structure WithdrawalRequest where
  provider : Nat
  poolTokenAmount : Nat
  createdAt : Nat
  deriving DecidableEq, Repr

/-- Modelled from the spec: PendingWithdrawals.sol is absent from src/; a
request is Ready exactly inside the half-open window
[createdAt + lock_duration, createdAt + lock_duration + withdrawal_window)
(lifecycle Initiated, Ready after lock_duration, Expired after the
withdrawal window). -/
def canWithdrawAt (lockDuration windowDuration createdAt t : Nat) : Bool :=
  decide (createdAt + lockDuration ≤ t) &&
    decide (t < createdAt + lockDuration + windowDuration)

/-- Modelled from the spec: complete_withdrawal(id, provider) — callable only
by the request's provider (else AccessDenied) and only inside the Ready
window (else WithdrawalNotAllowed); on success it releases the custodied
pool-token amount for the Network to burn. -/
def completeWithdrawal (lockDuration windowDuration : Nat)
    (r : WithdrawalRequest) (caller t : Nat) : Except Err Nat :=
  if caller ≠ r.provider then .error .accessDenied
  else if canWithdrawAt lockDuration windowDuration r.createdAt t then
    .ok r.poolTokenAmount
  else .error .withdrawalNotAllowed

/-- C2: a withdrawal created at time c with lock duration L and window W,
completed by its provider: strictly before c + L it fails
WithdrawalNotAllowed; at any time in [c + L, c + L + W) it succeeds; at any
time after c + L + W it fails WithdrawalNotAllowed again. -/
theorem completeWithdrawal_window (L W : Nat) (r : WithdrawalRequest) (t : Nat) :
    (t < r.createdAt + L →
      completeWithdrawal L W r r.provider t = .error .withdrawalNotAllowed) ∧
    (r.createdAt + L ≤ t → t < r.createdAt + L + W →
      completeWithdrawal L W r r.provider t = .ok r.poolTokenAmount) ∧
    (r.createdAt + L + W < t →
      completeWithdrawal L W r r.provider t = .error .withdrawalNotAllowed) := by
  unfold completeWithdrawal canWithdrawAt
  rw [if_neg (by simp)]
  refine ⟨?_, ?_, ?_⟩
  · intro h
    rw [if_neg (by simp; omega)]
  · intro h1 h2
    rw [if_pos (by simp; omega)]
  · intro h
    rw [if_neg (by simp; omega)]

/-- Witness for C2: lock 7 days, window 3 days (in seconds), request created
at time 0 — completion fails at day 6, succeeds at 7 days + 1 second, fails
at 10 days + 1 second. -/
theorem completeWithdrawal_window_witness :
    completeWithdrawal 604800 259200 ⟨9, 1000, 0⟩ 9 518400 =
      .error .withdrawalNotAllowed ∧
    completeWithdrawal 604800 259200 ⟨9, 1000, 0⟩ 9 604801 = .ok 1000 ∧
    completeWithdrawal 604800 259200 ⟨9, 1000, 0⟩ 9 864001 =
      .error .withdrawalNotAllowed := by
  refine ⟨?_, ?_, ?_⟩
  · exact (completeWithdrawal_window 604800 259200 ⟨9, 1000, 0⟩ 518400).1
      (by decide)
  · exact (completeWithdrawal_window 604800 259200 ⟨9, 1000, 0⟩
      604801).2.1 (by decide) (by decide)
  · exact (completeWithdrawal_window 604800 259200 ⟨9, 1000, 0⟩
      864001).2.2 (by decide)

/-- Modelled from the spec: the deposit-relevant slice of a base-token pool
record — staked balance s, the pool token's total supply, and the deposit
gates.  The trading-liquidity top-up a deposit may trigger touches only
(b, n) and is outside this slice. -/
structure BasePool where
  stakedBalance : Nat
  poolTokenSupply : Nat
  depositingEnabled : Bool
  depositLimit : Nat
  deriving DecidableEq, Repr

/-- Pool-token issuance on deposit: amount itself on the first deposit
(s = 0), mul_div_floor(amount, total_supply, s) afterwards. -/
def depositPoolTokenAmount (stakedBalance poolTokenSupply amount : Nat) : Nat :=
  if stakedBalance = 0 then amount
  else mulDivFloor amount poolTokenSupply stakedBalance

/-- Modelled from the spec: PoolCollection.sol is absent from src/; this is
the deposit of section 4.5 restricted to the BasePool slice — fail
DepositingDisabled or DepositLimitExceeded (s + amount > deposit_limit),
else mint the proportional pool-token amount and grow s by the deposit. -/
def baseTokenDeposit (p : BasePool) (amount : Nat) :
    Except Err (BasePool × Nat) :=
  if p.depositingEnabled = false then .error .depositingDisabled
  else if p.depositLimit < p.stakedBalance + amount then
    .error .depositLimitExceeded
  else
    let pt := depositPoolTokenAmount p.stakedBalance p.poolTokenSupply amount
    .ok ({ p with stakedBalance := p.stakedBalance + amount,
                  poolTokenSupply := p.poolTokenSupply + pt }, pt)

/-- C4: every accepted base-token deposit mints amount pool tokens when the
staked balance is zero and floor(amount * total_supply / s) otherwise, grows
the pool-token total supply by exactly the minted amount, and grows the
staked balance by exactly the deposited amount. -/
theorem baseTokenDeposit_accounting (p : BasePool) (amount : Nat)
    (p' : BasePool) (pt : Nat)
    (h : baseTokenDeposit p amount = .ok (p', pt)) :
    pt = (if p.stakedBalance = 0 then amount
          else amount * p.poolTokenSupply / p.stakedBalance) ∧
    p'.poolTokenSupply = p.poolTokenSupply + pt ∧
    p'.stakedBalance = p.stakedBalance + amount := by
  unfold baseTokenDeposit at h
  by_cases h1 : p.depositingEnabled = false
  · rw [if_pos h1] at h
    exact absurd h (by simp)
  · rw [if_neg h1] at h
    by_cases h2 : p.depositLimit < p.stakedBalance + amount
    · rw [if_pos h2] at h
      exact absurd h (by simp)
    · rw [if_neg h2] at h
      simp only [Except.ok.injEq, Prod.mk.injEq] at h
      obtain ⟨hp', hpt⟩ := h
      subst hpt
      subst hp'
      refine ⟨?_, rfl, rfl⟩
      unfold depositPoolTokenAmount mulDivFloor
      rfl

/-- Witness for C4: a pool with s = 4000 and supply 2000 accepts a deposit of
1000 and mints 500 pool tokens. -/
theorem baseTokenDeposit_accounting_witness :
    baseTokenDeposit ⟨4000, 2000, true, 100000⟩ 1000 =
      .ok (⟨5000, 2500, true, 100000⟩, 500) ∧
    ((500 : Nat) = (if (4000 : Nat) = 0 then 1000 else 1000 * 2000 / 4000) ∧
      (2500 : Nat) = 2000 + 500 ∧ (5000 : Nat) = 4000 + 1000) :=
  ⟨rfl,
    baseTokenDeposit_accounting ⟨4000, 2000, true, 100000⟩ 1000
      ⟨5000, 2500, true, 100000⟩ 500 rfl⟩

/-- Modelled from the spec: the stable-rate check —
|spot − average| / average ≤ max_deviation_ppm / PPM — in cross-multiplied
integer form: avg.n * spot.d * (PPM − dev) ≤ spot.n * avg.d * PPM ≤
avg.n * spot.d * (PPM + dev). -/
def isRateStable (spot avg : Fraction) (maxDeviationPPM : Nat) : Bool :=
  decide (avg.n * spot.d * (PPM_RESOLUTION - maxDeviationPPM) ≤
      spot.n * avg.d * PPM_RESOLUTION) &&
    decide (spot.n * avg.d * PPM_RESOLUTION ≤
      avg.n * spot.d * (PPM_RESOLUTION + maxDeviationPPM))

/-- The trading-liquidity slice of a pool that the rate guard and the trade
formulas read: the (b, n) reserves, the staked balance and the recent
average rate. -/
structure TradingPool where
  baseTokenTradingLiquidity : Nat
  networkTokenTradingLiquidity : Nat
  stakedBalance : Nat
  averageRate : Fraction
  deriving DecidableEq, Repr

/-- Spot rate of a pool: NT reserve over BT reserve. -/
def spotRate (p : TradingPool) : Fraction :=
  { n := p.networkTokenTradingLiquidity, d := p.baseTokenTradingLiquidity }

/-- Modelled from the spec: the constant-product output of section 4.1 —
fee = mul_div_floor(a, f, PPM); amount_out = mul_div_floor(y, a − fee,
x + a − fee). -/
def tradeOutput (x y a feePPM : Nat) : Nat :=
  let fee := mulDivFloor a feePPM PPM_RESOLUTION
  mulDivFloor y (a - fee) (x + a - fee)

/-- Modelled from the spec: PoolCollection.sol is absent from src/; the
withdrawal path on a trading pool first requires network liquidity to be
enabled — in particular the average rate stable against the spot rate — and
fails NetworkLiquidityDisabled otherwise; past the guard, the payout solver
is abstracted to the pro-rata reduction of the staked balance, which is all
claim C5 reads. -/
def poolWithdraw (maxDeviationPPM : Nat) (p : TradingPool)
    (poolTokenAmount poolTokenSupply : Nat) : Except Err TradingPool :=
  if isRateStable (spotRate p) p.averageRate maxDeviationPPM = false then
    .error .networkLiquidityDisabled
  else
    .ok { p with stakedBalance :=
      p.stakedBalance - mulDivFloor poolTokenAmount p.stakedBalance poolTokenSupply }

/-- Modelled from the spec: the BT→NT trade of section 4.5 — it fails
RateUnstable when the deviation bound between spot and average rate is
broken, ReturnAmountTooLow when the output is below min_out, and otherwise
moves the constant-product reserves. -/
def poolTrade (maxDeviationPPM tradingFeePPM : Nat) (p : TradingPool)
    (amountIn minOut : Nat) : Except Err (TradingPool × Nat) :=
  if isRateStable (spotRate p) p.averageRate maxDeviationPPM = false then
    .error .rateUnstable
  else
    let out := tradeOutput p.baseTokenTradingLiquidity
      p.networkTokenTradingLiquidity amountIn tradingFeePPM
    if out < minOut then .error .returnAmountTooLow
    else
      .ok ({ p with
              baseTokenTradingLiquidity := p.baseTokenTradingLiquidity + amountIn,
              networkTokenTradingLiquidity :=
                p.networkTokenTradingLiquidity - out }, out)

/-- The full economic state an operation on one pool touches: the pool
record itself, the master vault's balances of the base token and of NT, and
the acting provider's balances of both. -/
structure PoolEconState where
  pool : TradingPool
  vaultBase : Nat
  vaultNetwork : Nat
  providerBase : Nat
  providerNetwork : Nat
  deriving DecidableEq, Repr

/-- Modelled from the spec: a withdrawal through the Network — the
pool-collection step first (with its network-liquidity guard), then the
vault pays the provider its pro-rata base-token share. -/
def networkWithdraw (maxDev : Nat) (s : PoolEconState)
    (ptAmount ptSupply : Nat) : Except Err PoolEconState :=
  match poolWithdraw maxDev s.pool ptAmount ptSupply with
  | .error e => .error e
  | .ok p' =>
    let payout := mulDivFloor ptAmount s.pool.stakedBalance ptSupply
    if s.vaultBase < payout then .error .transferExceedsBalance
    else
      .ok { s with pool := p',
                   vaultBase := s.vaultBase - payout,
                   providerBase := s.providerBase + payout }

/-- Modelled from the spec: a BT→NT trade through the Network — the trader
pays the base amount into the vault and the vault pays the NT output. -/
def networkTrade (maxDev feePPM : Nat) (s : PoolEconState)
    (amountIn minOut : Nat) : Except Err PoolEconState :=
  if s.providerBase < amountIn then .error .transferExceedsBalance
  else
    match poolTrade maxDev feePPM s.pool amountIn minOut with
    | .error e => .error e
    | .ok (p', out) =>
      if s.vaultNetwork < out then .error .transferExceedsBalance
      else
        .ok { s with pool := p',
                     vaultBase := s.vaultBase + amountIn,
                     providerBase := s.providerBase - amountIn,
                     vaultNetwork := s.vaultNetwork - out,
                     providerNetwork := s.providerNetwork + out }

/-- Transactional semantics of spec section 7 for a withdrawal: a failed
operation commits nothing. -/
def applyNetworkWithdraw (maxDev : Nat) (s : PoolEconState)
    (ptAmount ptSupply : Nat) : PoolEconState :=
  match networkWithdraw maxDev s ptAmount ptSupply with
  | .ok s' => s'
  | .error _ => s

/-- Transactional semantics of spec section 7 for a trade: a failed
operation commits nothing. -/
def applyNetworkTrade (maxDev feePPM : Nat) (s : PoolEconState)
    (amountIn minOut : Nat) : PoolEconState :=
  match networkTrade maxDev feePPM s amountIn minOut with
  | .ok s' => s'
  | .error _ => s

/-- C5: when the average rate deviates from the spot rate beyond
avg_rate_max_deviation_ppm, a withdrawal on the pool fails
NetworkLiquidityDisabled and a trade fails RateUnstable, and neither
rejected call commits any state mutation: the pool record and every vault
and token balance are unchanged. -/
theorem rate_unstable_rejects_operations (maxDev feePPM : Nat)
    (s : PoolEconState) (ptAmount ptSupply amountIn minOut : Nat)
    (h : isRateStable (spotRate s.pool) s.pool.averageRate maxDev = false) :
    networkWithdraw maxDev s ptAmount ptSupply =
      .error .networkLiquidityDisabled ∧
    applyNetworkWithdraw maxDev s ptAmount ptSupply = s ∧
    (s.providerBase < amountIn ∨
      networkTrade maxDev feePPM s amountIn minOut = .error .rateUnstable) ∧
    applyNetworkTrade maxDev feePPM s amountIn minOut = s := by
  have hwp : poolWithdraw maxDev s.pool ptAmount ptSupply =
      .error .networkLiquidityDisabled := by
    unfold poolWithdraw
    rw [if_pos h]
  have htp : poolTrade maxDev feePPM s.pool amountIn minOut =
      .error .rateUnstable := by
    unfold poolTrade
    rw [if_pos h]
  have hw : networkWithdraw maxDev s ptAmount ptSupply =
      .error .networkLiquidityDisabled := by
    unfold networkWithdraw
    rw [hwp]
  by_cases hb : s.providerBase < amountIn
  · have ht : networkTrade maxDev feePPM s amountIn minOut =
        .error .transferExceedsBalance := by
      unfold networkTrade
      rw [if_pos hb]
    refine ⟨hw, ?_, Or.inl hb, ?_⟩
    · unfold applyNetworkWithdraw
      rw [hw]
    · unfold applyNetworkTrade
      rw [ht]
  · have ht : networkTrade maxDev feePPM s amountIn minOut =
        .error .rateUnstable := by
      unfold networkTrade
      rw [if_neg hb, htp]
    refine ⟨hw, ?_, Or.inr ht, ?_⟩
    · unfold applyNetworkWithdraw
      rw [hw]
    · unfold applyNetworkTrade
      rw [ht]

/-- Witness for C5: spot rate 1/1 against an average rate 2/1 with a 1%
deviation bound (the unstable-rate setup of the withdrawal tests, scaled):
both operations are rejected and the whole economic state is untouched. -/
theorem rate_unstable_rejects_operations_witness :
    isRateStable (spotRate ⟨1000, 1000, 5000, ⟨2, 1⟩⟩) ⟨2, 1⟩ 10000 = false ∧
    networkWithdraw 10000 ⟨⟨1000, 1000, 5000, ⟨2, 1⟩⟩, 800, 900, 60, 70⟩ 10 100 =
      .error .networkLiquidityDisabled ∧
    applyNetworkWithdraw 10000 ⟨⟨1000, 1000, 5000, ⟨2, 1⟩⟩, 800, 900, 60, 70⟩ 10 100 =
      ⟨⟨1000, 1000, 5000, ⟨2, 1⟩⟩, 800, 900, 60, 70⟩ ∧
    ((60 : Nat) < 50 ∨
      networkTrade 10000 5000 ⟨⟨1000, 1000, 5000, ⟨2, 1⟩⟩, 800, 900, 60, 70⟩ 50 0 =
        .error .rateUnstable) ∧
    applyNetworkTrade 10000 5000 ⟨⟨1000, 1000, 5000, ⟨2, 1⟩⟩, 800, 900, 60, 70⟩ 50 0 =
      ⟨⟨1000, 1000, 5000, ⟨2, 1⟩⟩, 800, 900, 60, 70⟩ :=
  ⟨by decide,
    rate_unstable_rejects_operations 10000 5000
      ⟨⟨1000, 1000, 5000, ⟨2, 1⟩⟩, 800, 900, 60, 70⟩ 10 100 50 0 (by decide)⟩

/-- The recent average rate of a pool, as in the contracts' AverageRate
{ rate, time }. -/
structure AverageRate where
  rate : Fraction
  time : Nat
  deriving DecidableEq, Repr

/-- The per-pool record, field for field the struct Pool of
src/packages/v3/contracts/pools/interfaces/IPoolCollection.sol (addresses
such as the pool token's identity are modelled as Nat). -/
structure Pool where
  poolToken : Nat
  tradingFeePPM : Nat
  tradingEnabled : Bool
  depositingEnabled : Bool
  baseTokenTradingLiquidity : Nat
  networkTokenTradingLiquidity : Nat
  averageRate : AverageRate
  tradingLiquidityProduct : Nat
  stakedBalance : Nat
  initialRate : Fraction
  depositLimit : Nat
  deriving DecidableEq, Repr

/-- Lookup of a pool record by base-token address in a collection's pool
map, modelled as an association list. -/
def lookupPool (ps : List (Nat × Pool)) (token : Nat) : Option Pool :=
  match ps with
  | [] => none
  | (t, p) :: rest => if t = token then some p else lookupPool rest token

/-- Removal of a pool from a collection's pool map. -/
def removePool (ps : List (Nat × Pool)) (token : Nat) : List (Nat × Pool) :=
  match ps with
  | [] => []
  | (t, p) :: rest =>
    if t = token then removePool rest token
    else (t, p) :: removePool rest token

/-- The state the pool-collection upgrade reads and writes: the pools of the
older (source) collection, the pools of the latest (target) collection, and
the LP pool-token balances, which an upgrade must not touch. -/
structure UpgradeState where
  sourcePools : List (Nat × Pool)
  targetPools : List (Nat × Pool)
  lpBalances : List (Nat × Nat)
  deriving DecidableEq, Repr

/-- Which collection the Network routes a pool's operations to. -/
inductive CollectionRef where
  | sourceCollection
  | targetCollection
  deriving DecidableEq, Repr

/-- The Network's collectionByPool routing map, derived from residency. -/
def collectionByPool (s : UpgradeState) (token : Nat) : Option CollectionRef :=
  if (lookupPool s.sourcePools token).isSome then some .sourceCollection
  else if (lookupPool s.targetPools token).isSome then some .targetCollection
  else none

/-- Modelled from the spec: PoolCollectionUpgrader.sol is absent from src/;
upgrade_pool(BT) as pinned by the test suite (src/unnamed/part_001, the
upgrade pool suite): the zero address and a pool resident in no collection
fail InvalidPool, a pool already resident in the latest collection fails
InvalidPoolCollection, and otherwise the pool record is moved atomically
from the source collection to the target collection. -/
def upgradePool (s : UpgradeState) (token : Nat) : Except Err UpgradeState :=
  if token = 0 then .error .invalidPool
  else
    match lookupPool s.sourcePools token with
    | some p =>
      .ok { s with sourcePools := removePool s.sourcePools token,
                   targetPools := (token, p) :: s.targetPools }
    | none =>
      if (lookupPool s.targetPools token).isSome then .error .invalidPoolCollection
      else .error .invalidPool

/-- Modelled from the spec and the test suite: upgrade_pools(batch) upgrades
the pools of the batch in order; a per-pool failure aborts the whole call
(the tests expect a batch holding a zero address to revert InvalidPool and a
re-upgrade to revert InvalidPoolCollection). -/
def upgradePools (s : UpgradeState) (batch : List Nat) : Except Err UpgradeState :=
  match batch with
  | [] => .ok s
  | token :: rest =>
    match upgradePool s token with
    | .error e => .error e
    | .ok s' => upgradePools s' rest

/-- Transactional semantics of spec section 7: a failed upgrade_pools call
commits nothing. -/
def applyUpgradePools (s : UpgradeState) (batch : List Nat) : UpgradeState :=
  match upgradePools s batch with
  | .ok s' => s'
  | .error _ => s

theorem lookupPool_removePool_self (ps : List (Nat × Pool)) (t : Nat) :
    lookupPool (removePool ps t) t = none := by
  induction ps with
  | nil => rfl
  | cons hd rest ih =>
    obtain ⟨v, p⟩ := hd
    by_cases hv : v = t
    · have h1 : removePool ((v, p) :: rest) t = removePool rest t := by
        simp only [removePool, if_pos hv]
      rw [h1]
      exact ih
    · have h1 : removePool ((v, p) :: rest) t = (v, p) :: removePool rest t := by
        simp only [removePool, if_neg hv]
      rw [h1]
      simp only [lookupPool]
      rw [if_neg hv]
      exact ih

theorem lookupPool_removePool_ne (ps : List (Nat × Pool)) (t u : Nat)
    (h : u ≠ t) : lookupPool (removePool ps t) u = lookupPool ps u := by
  induction ps with
  | nil => rfl
  | cons hd rest ih =>
    obtain ⟨v, p⟩ := hd
    by_cases hv : v = t
    · have h1 : removePool ((v, p) :: rest) t = removePool rest t := by
        simp only [removePool, if_pos hv]
      rw [h1, ih]
      have h2 : lookupPool ((v, p) :: rest) u = lookupPool rest u := by
        simp only [lookupPool]
        rw [if_neg (by rw [hv]; exact fun e => h e.symm)]
      rw [h2]
    · have h1 : removePool ((v, p) :: rest) t = (v, p) :: removePool rest t := by
        simp only [removePool, if_neg hv]
      rw [h1]
      simp only [lookupPool]
      by_cases hvu : v = u
      · rw [if_pos hvu, if_pos hvu]
      · rw [if_neg hvu, if_neg hvu]
        exact ih

theorem upgradePool_ok_elim (s : UpgradeState) (token : Nat)
    (s' : UpgradeState) (h : upgradePool s token = .ok s') :
    token ≠ 0 ∧ ∃ p, lookupPool s.sourcePools token = some p ∧
      s' = { s with sourcePools := removePool s.sourcePools token,
                    targetPools := (token, p) :: s.targetPools } := by
  unfold upgradePool at h
  by_cases h0 : token = 0
  · rw [if_pos h0] at h; exact absurd h (by simp)
  · rw [if_neg h0] at h
    refine ⟨h0, ?_⟩
    cases hs : lookupPool s.sourcePools token with
    | some p =>
      rw [hs] at h
      simp only [Except.ok.injEq] at h
      exact ⟨p, rfl, h.symm⟩
    | none =>
      rw [hs] at h
      by_cases ht : (lookupPool s.targetPools token).isSome
      · rw [if_pos ht] at h; exact absurd h (by simp)
      · rw [if_neg ht] at h; exact absurd h (by simp)

theorem upgradePool_error_elim (s : UpgradeState) (token : Nat) (e : Err)
    (h : upgradePool s token = .error e) :
    e = .invalidPool ∨ e = .invalidPoolCollection := by
  unfold upgradePool at h
  by_cases h0 : token = 0
  · rw [if_pos h0] at h
    simp only [Except.error.injEq] at h
    exact Or.inl h.symm
  · rw [if_neg h0] at h
    cases hs : lookupPool s.sourcePools token with
    | some p => rw [hs] at h; exact absurd h (by simp)
    | none =>
      rw [hs] at h
      by_cases ht : (lookupPool s.targetPools token).isSome
      · rw [if_pos ht] at h
        simp only [Except.error.injEq] at h
        exact Or.inr h.symm
      · rw [if_neg ht] at h
        simp only [Except.error.injEq] at h
        exact Or.inl h.symm

theorem lookupPool_cons_self (ps : List (Nat × Pool)) (t : Nat) (p : Pool) :
    lookupPool ((t, p) :: ps) t = some p := by
  simp [lookupPool]

theorem upgradePools_error_elim (batch : List Nat) :
    ∀ (s : UpgradeState) (e : Err), upgradePools s batch = .error e →
      e = .invalidPool ∨ e = .invalidPoolCollection := by
  induction batch with
  | nil =>
    intro s e h
    exact absurd h (by simp [upgradePools])
  | cons a rest ih =>
    intro s e h
    simp only [upgradePools] at h
    cases h1 : upgradePool s a with
    | error e1 =>
      rw [h1] at h
      simp only [Except.error.injEq] at h
      subst h
      exact upgradePool_error_elim s a e1 h1
    | ok s1 =>
      rw [h1] at h
      exact ih s1 e h

theorem upgradePools_frame (batch : List Nat) :
    ∀ (s s' : UpgradeState), upgradePools s batch = .ok s' →
      ∀ u, u ∉ batch →
        lookupPool s'.targetPools u = lookupPool s.targetPools u ∧
        lookupPool s'.sourcePools u = lookupPool s.sourcePools u ∧
        s'.lpBalances = s.lpBalances := by
  induction batch with
  | nil =>
    intro s s' h u hu
    simp only [upgradePools, Except.ok.injEq] at h
    subst h
    exact ⟨rfl, rfl, rfl⟩
  | cons a rest ih =>
    intro s s' h u hu
    rw [List.mem_cons] at hu
    push_neg at hu
    obtain ⟨hune, hurest⟩ := hu
    simp only [upgradePools] at h
    cases h1 : upgradePool s a with
    | error e =>
      rw [h1] at h
      exact absurd h (by simp)
    | ok s1 =>
      rw [h1] at h
      obtain ⟨h0, p, hsrc, hs1⟩ := upgradePool_ok_elim s a s1 h1
      have hrest := ih s1 s' h u hurest
      subst hs1
      refine ⟨?_, ?_, hrest.2.2⟩
      · rw [hrest.1]
        simp only [lookupPool]
        rw [if_neg (fun e => hune e.symm)]
      · rw [hrest.2.1]
        exact lookupPool_removePool_ne _ a u hune

theorem upgradePools_valid_success (batch : List Nat) :
    ∀ s : UpgradeState,
      (∀ t ∈ batch, t ≠ 0 ∧ (lookupPool s.sourcePools t).isSome) →
      batch.Nodup →
      ∃ s', upgradePools s batch = .ok s' ∧
        ∀ t ∈ batch,
          lookupPool s'.targetPools t = lookupPool s.sourcePools t ∧
          lookupPool s'.sourcePools t = none := by
  induction batch with
  | nil =>
    intro s hv hn
    exact ⟨s, rfl, by intro t ht; cases ht⟩
  | cons a rest ih =>
    intro s hv hn
    rw [List.nodup_cons] at hn
    obtain ⟨hanr, hnr⟩ := hn
    obtain ⟨ha0, hasrc⟩ := hv a (List.mem_cons_self a rest)
    obtain ⟨p, hp⟩ := Option.isSome_iff_exists.mp hasrc
    have h1 : upgradePool s a =
        .ok { s with sourcePools := removePool s.sourcePools a,
                     targetPools := (a, p) :: s.targetPools } := by
      unfold upgradePool
      rw [if_neg ha0, hp]
    have hvrest : ∀ t ∈ rest, t ≠ 0 ∧
        (lookupPool (removePool s.sourcePools a) t).isSome := by
      intro t ht
      have hta : t ≠ a := fun e => hanr (e ▸ ht)
      obtain ⟨ht0, htsrc⟩ := hv t (List.mem_cons_of_mem a ht)
      rw [lookupPool_removePool_ne _ a t hta]
      exact ⟨ht0, htsrc⟩
    obtain ⟨s', hs', hprops⟩ := ih
      { s with sourcePools := removePool s.sourcePools a,
               targetPools := (a, p) :: s.targetPools } hvrest hnr
    have hframe := upgradePools_frame rest
      { s with sourcePools := removePool s.sourcePools a,
               targetPools := (a, p) :: s.targetPools } s' hs' a hanr
    refine ⟨s', ?_, ?_⟩
    · simp only [upgradePools]
      rw [h1]
      exact hs'
    · intro t ht
      rcases List.mem_cons.mp ht with hta | htr
      · rw [hta]
        constructor
        · rw [hframe.1, hp]
          exact lookupPool_cons_self _ a p
        · rw [hframe.2.1]
          exact lookupPool_removePool_self _ a
      · have hta : t ≠ a := fun e => hanr (e ▸ htr)
        have := hprops t htr
        rw [lookupPool_removePool_ne _ a t hta] at this
        exact this

/-- An example pool record used by the concrete upgrade scenarios. -/
def samplePool : Pool :=
  ⟨77, 5000, true, true, 100, 200, ⟨⟨1, 2⟩, 0⟩, 20000, 1000, ⟨1, 2⟩, 100000⟩

/-- An example upgrade state: base token 1 lives in the source collection,
the target collection is empty, one LP holds 99 pool tokens. -/
def sampleUpgradeState : UpgradeState :=
  { sourcePools := [(1, samplePool)], targetPools := [], lpBalances := [(42, 99)] }

/-- C3 counterexample: over a state whose source collection holds the valid
pool 1, the batch [0, 1] — an invalid zero entry followed by a valid pool —
is not processed by skipping the invalid entry: the whole call fails
InvalidPool, nothing is committed, and the valid pool 1 is not upgraded
(the target collection stays empty). -/
theorem upgradePools_no_skip_counterexample :
    upgradePools sampleUpgradeState [0, 1] = .error .invalidPool ∧
    applyUpgradePools sampleUpgradeState [0, 1] = sampleUpgradeState ∧
    (applyUpgradePools sampleUpgradeState [0, 1]).targetPools = [] :=
  ⟨rfl, rfl, rfl⟩

/-- C3 amended: upgrade_pools(batch) is all-or-nothing — a batch holding an
invalid or already-upgraded entry fails as a whole with
InvalidPool/InvalidPoolCollection and commits nothing, while a duplicate-free
batch of valid source-collection pools upgrades every one of them into the
target collection. -/
theorem upgradePools_batch_semantics (s : UpgradeState) (batch : List Nat) :
    (∀ e, upgradePools s batch = .error e →
      applyUpgradePools s batch = s ∧
      (e = .invalidPool ∨ e = .invalidPoolCollection)) ∧
    ((∀ t ∈ batch, t ≠ 0 ∧ (lookupPool s.sourcePools t).isSome) →
      batch.Nodup →
      ∃ s', upgradePools s batch = .ok s' ∧
        ∀ t ∈ batch,
          lookupPool s'.targetPools t = lookupPool s.sourcePools t ∧
          lookupPool s'.sourcePools t = none) := by
  constructor
  · intro e he
    refine ⟨?_, upgradePools_error_elim batch s e he⟩
    unfold applyUpgradePools
    rw [he]
  · intro hv hn
    exact upgradePools_valid_success batch s hv hn

/-- Witness for C3 amended: the batch [0, 1] over the sample state fails
InvalidPool and commits nothing, and the singleton batch [1] of the valid
pool is upgraded. -/
theorem upgradePools_batch_semantics_witness :
    (applyUpgradePools sampleUpgradeState [0, 1] = sampleUpgradeState ∧
      (Err.invalidPool = .invalidPool ∨ Err.invalidPool = .invalidPoolCollection)) ∧
    (∃ s', upgradePools sampleUpgradeState [1] = .ok s' ∧
      ∀ t ∈ [1],
        lookupPool s'.targetPools t = lookupPool sampleUpgradeState.sourcePools t ∧
        lookupPool s'.sourcePools t = none) :=
  ⟨(upgradePools_batch_semantics sampleUpgradeState [0, 1]).1 .invalidPool rfl,
    (upgradePools_batch_semantics sampleUpgradeState [1]).2
      (by intro t ht; simp only [List.mem_singleton] at ht; subst ht
          exact ⟨by decide, rfl⟩)
      (List.nodup_singleton 1)⟩

/-- C8: upgrading the singleton batch [BT] moves the pool record unchanged —
every field, the pool-token identity included, is identical in the target
collection — leaves the LP pool-token balances untouched, removes the pool
from the source collection, and makes the Network route the pool to the
target collection from then on. -/
theorem upgradePools_preserves_pool (s : UpgradeState) (token : Nat) (p : Pool)
    (h0 : token ≠ 0) (hsrc : lookupPool s.sourcePools token = some p) :
    ∃ s', upgradePools s [token] = .ok s' ∧
      lookupPool s'.targetPools token = some p ∧
      (lookupPool s'.targetPools token).map Pool.poolToken = some p.poolToken ∧
      lookupPool s'.sourcePools token = none ∧
      s'.lpBalances = s.lpBalances ∧
      collectionByPool s' token = some .targetCollection := by
  have h1 : upgradePool s token =
      .ok { s with sourcePools := removePool s.sourcePools token,
                   targetPools := (token, p) :: s.targetPools } := by
    unfold upgradePool
    rw [if_neg h0, hsrc]
  refine Exists.intro { s with sourcePools := removePool s.sourcePools token, targetPools := (token, p) :: s.targetPools } ?_
  refine ⟨?_, ?_, ?_, ?_, rfl, ?_⟩
  · simp only [upgradePools]
    rw [h1]
  · exact lookupPool_cons_self _ token p
  · rw [show lookupPool ((token, p) :: s.targetPools) token = some p from
      lookupPool_cons_self _ token p]
    rfl
  · exact lookupPool_removePool_self _ token
  · simp [collectionByPool, lookupPool_removePool_self, lookupPool_cons_self]

/-- Witness for C8: upgrading pool 1 of the sample state. -/
theorem upgradePools_preserves_pool_witness :
    ((1 : Nat) ≠ 0 ∧
      lookupPool sampleUpgradeState.sourcePools 1 = some samplePool) ∧
    ∃ s', upgradePools sampleUpgradeState [1] = .ok s' ∧
      lookupPool s'.targetPools 1 = some samplePool ∧
      (lookupPool s'.targetPools 1).map Pool.poolToken = some samplePool.poolToken ∧
      lookupPool s'.sourcePools 1 = none ∧
      s'.lpBalances = sampleUpgradeState.lpBalances ∧
      collectionByPool s' 1 = some .targetCollection :=
  ⟨⟨by decide, rfl⟩,
    upgradePools_preserves_pool sampleUpgradeState 1 samplePool (by decide) rfl⟩

/-- The MasterPool slice a network-token deposit reads and writes: the NT
staked balance, the NT pool token (its total supply and the MasterPool's own
holding of it), the governance token, the network token's supply and the
provider's balances. -/
structure MasterPoolState where
  stakedBalance : Nat
  poolTokenSupply : Nat
  masterPoolTokenBalance : Nat
  providerPoolTokenBalance : Nat
  govTokenSupply : Nat
  providerGovBalance : Nat
  ntTotalSupply : Nat
  providerNtBalance : Nat
  deriving DecidableEq, Repr

/-- Modelled from the spec: MasterPool.sol is absent from src/; the
network-token deposit of section 4.6, with the pool-token movement as pinned
by the deposit expectations in src/unnamed/part_001 (verifyDeposit, network
token branch): the NT amount is burned from the provider, the provider
receives pool_token_amount = mul_div_floor(amount, pool_token_supply,
nt_staked_balance) NT pool tokens out of the MasterPool's own pre-minted
balance — the pool-token total supply does not change — and the same amount
of governance tokens is minted to the provider. -/
def masterPoolDeposit (s : MasterPoolState) (amount : Nat) :
    Except Err (MasterPoolState × Nat) :=
  let pt := mulDivFloor amount s.poolTokenSupply s.stakedBalance
  if s.providerNtBalance < amount then .error .transferExceedsBalance
  else if s.masterPoolTokenBalance < pt then .error .transferExceedsBalance
  else
    .ok ({ s with ntTotalSupply := s.ntTotalSupply - amount,
                  providerNtBalance := s.providerNtBalance - amount,
                  masterPoolTokenBalance := s.masterPoolTokenBalance - pt,
                  providerPoolTokenBalance := s.providerPoolTokenBalance + pt,
                  govTokenSupply := s.govTokenSupply + pt,
                  providerGovBalance := s.providerGovBalance + pt }, pt)

/-- An example MasterPool state: staked balance 100, pool-token supply 100 of
which the MasterPool itself holds 50, governance supply 80, NT supply 1000 of
which the provider holds 10. -/
def sampleMasterPool : MasterPoolState :=
  ⟨100, 100, 50, 0, 80, 0, 1000, 10⟩

/-- C9 counterexample: the deposit of 10 NT into the sample MasterPool state
is accepted and credits 10 pool tokens, yet the pool-token total supply is
still 100 afterwards — the pool tokens are not minted (a mint would leave a
supply of 100 + 10), refuting the claim's minting clause. -/
theorem masterPoolDeposit_no_mint_counterexample :
    Except.map (fun r => ((r.1).poolTokenSupply, r.2))
        (masterPoolDeposit sampleMasterPool 10) = .ok (100, 10) ∧
    (100 : Nat) ≠ 100 + 10 :=
  ⟨rfl, by decide⟩

/-- C9 amended: an accepted MasterPool deposit burns the NT amount from the
provider (NT total supply drops by the amount), credits the provider with
pool_token_amount = floor(amount * pool_token_supply / nt_staked_balance) NT
pool tokens transferred out of the MasterPool's own balance — leaving the
pool-token total supply unchanged — and mints exactly pool_token_amount
governance tokens to the provider. -/
theorem masterPoolDeposit_accounting (s : MasterPoolState) (amount : Nat)
    (s' : MasterPoolState) (pt : Nat)
    (h : masterPoolDeposit s amount = .ok (s', pt)) :
    pt = amount * s.poolTokenSupply / s.stakedBalance ∧
    s'.ntTotalSupply = s.ntTotalSupply - amount ∧
    s'.providerNtBalance = s.providerNtBalance - amount ∧
    s'.poolTokenSupply = s.poolTokenSupply ∧
    s'.providerPoolTokenBalance = s.providerPoolTokenBalance + pt ∧
    s'.masterPoolTokenBalance = s.masterPoolTokenBalance - pt ∧
    s'.govTokenSupply = s.govTokenSupply + pt ∧
    s'.providerGovBalance = s.providerGovBalance + pt := by
  unfold masterPoolDeposit at h
  by_cases h1 : s.providerNtBalance < amount
  · rw [if_pos h1] at h
    exact absurd h (by simp)
  · rw [if_neg h1] at h
    by_cases h2 : s.masterPoolTokenBalance <
        mulDivFloor amount s.poolTokenSupply s.stakedBalance
    · rw [if_pos h2] at h
      exact absurd h (by simp)
    · rw [if_neg h2] at h
      simp only [Except.ok.injEq, Prod.mk.injEq] at h
      obtain ⟨hs', hpt⟩ := h
      subst hpt
      subst hs'
      exact ⟨rfl, rfl, rfl, rfl, rfl, rfl, rfl, rfl⟩

/-- Witness for C9 amended: the sample deposit of 10 NT yields 10 pool
tokens, burns 10 NT, keeps the pool-token supply at 100 and mints 10
governance tokens. -/
theorem masterPoolDeposit_accounting_witness :
    masterPoolDeposit sampleMasterPool 10 =
      .ok (⟨100, 100, 40, 10, 90, 10, 990, 0⟩, 10) ∧
    ((10 : Nat) = 10 * 100 / 100 ∧
      (990 : Nat) = 1000 - 10 ∧ (0 : Nat) = 10 - 10 ∧ (100 : Nat) = 100 ∧
      (10 : Nat) = 0 + 10 ∧ (40 : Nat) = 50 - 10 ∧ (90 : Nat) = 80 + 10 ∧
      (10 : Nat) = 0 + 10) :=
  ⟨rfl,
    masterPoolDeposit_accounting sampleMasterPool 10
      ⟨100, 100, 40, 10, 90, 10, 990, 0⟩ 10 rfl⟩

/-- The balances a BT1→BT2 trade touches, for the three tokens involved:
source base token, target base token, and the network token. -/
structure TradeBalances where
  traderSource : Nat
  traderTarget : Nat
  traderNetwork : Nat
  beneficiarySource : Nat
  beneficiaryTarget : Nat
  beneficiaryNetwork : Nat
  vaultSource : Nat
  vaultTarget : Nat
  vaultNetwork : Nat
  deriving DecidableEq, Repr

/-- A two-pool system for a BT1→BT2 trade routed through NT. -/
structure TradeSystem where
  balances : TradeBalances
  sourcePool : TradingPool
  targetPool : TradingPool
  deriving DecidableEq, Repr

/-- Modelled from the spec: the NT→BT hop of section 4.5 — the mirror image
of poolTrade, taking NT in and giving the base token out. -/
def poolTradeFromNetwork (maxDeviationPPM tradingFeePPM : Nat)
    (p : TradingPool) (amountIn minOut : Nat) : Except Err (TradingPool × Nat) :=
  if isRateStable (spotRate p) p.averageRate maxDeviationPPM = false then
    .error .rateUnstable
  else
    let out := tradeOutput p.networkTokenTradingLiquidity
      p.baseTokenTradingLiquidity amountIn tradingFeePPM
    if out < minOut then .error .returnAmountTooLow
    else
      .ok ({ p with
              networkTokenTradingLiquidity :=
                p.networkTokenTradingLiquidity + amountIn,
              baseTokenTradingLiquidity :=
                p.baseTokenTradingLiquidity - out }, out)

/-- Modelled from the spec: a BT1→BT2 trade through the Network (section 2
data flow): the source hop converts the base amount to NT inside the master
vault, the target hop converts that NT to the target base token; the trader
pays the source amount into the vault and the beneficiary receives the
target amount from it.  The intermediate NT never leaves the vault: only the
pools' trading-liquidity accounts move it. -/
def tradeBtToBt (maxDev sourceFeePPM targetFeePPM : Nat) (sys : TradeSystem)
    (amount minOut : Nat) : Except Err (TradeSystem × Nat) :=
  if sys.balances.traderSource < amount then .error .transferExceedsBalance
  else
    match poolTrade maxDev sourceFeePPM sys.sourcePool amount 0 with
    | .error e => .error e
    | .ok (sp', ntAmount) =>
      match poolTradeFromNetwork maxDev targetFeePPM sys.targetPool ntAmount minOut with
      | .error e => .error e
      | .ok (tp', targetAmount) =>
        if sys.balances.vaultTarget < targetAmount then
          .error .transferExceedsBalance
        else
          .ok ({ balances :=
                  { sys.balances with
                      traderSource := sys.balances.traderSource - amount,
                      vaultSource := sys.balances.vaultSource + amount,
                      vaultTarget := sys.balances.vaultTarget - targetAmount,
                      beneficiaryTarget :=
                        sys.balances.beneficiaryTarget + targetAmount },
                 sourcePool := sp',
                 targetPool := tp' }, targetAmount)

/-- C10: a successful BT1→BT2 trade in which neither side is the network
token moves no NT out of the system: the trader's, the beneficiary's and the
master vault's NT balances are all unchanged. -/
theorem tradeBtToBt_network_token_frame (maxDev f1 f2 : Nat)
    (sys sys' : TradeSystem) (amount minOut out : Nat)
    (h : tradeBtToBt maxDev f1 f2 sys amount minOut = .ok (sys', out)) :
    sys'.balances.traderNetwork = sys.balances.traderNetwork ∧
    sys'.balances.beneficiaryNetwork = sys.balances.beneficiaryNetwork ∧
    sys'.balances.vaultNetwork = sys.balances.vaultNetwork := by
  unfold tradeBtToBt at h
  split at h
  · exact absurd h (by simp)
  split at h
  · exact absurd h (by simp)
  split at h
  · exact absurd h (by simp)
  split at h
  · exact absurd h (by simp)
  simp only [Except.ok.injEq, Prod.mk.injEq] at h
  obtain ⟨hsys', hout⟩ := h
  subst hsys'
  exact ⟨rfl, rfl, rfl⟩

/-- Witness for C10: a concrete successful trade of 100 source tokens
through two stable pools with zero fees. -/
theorem tradeBtToBt_network_token_frame_witness :
    (∃ sys' out,
      tradeBtToBt 10000 0 0
        ⟨⟨500, 0, 7, 0, 0, 8, 2000, 2000, 9⟩,
          ⟨1000, 1000, 5000, ⟨1, 1⟩⟩, ⟨1000, 1000, 5000, ⟨1, 1⟩⟩⟩ 100 0 =
        .ok (sys', out) ∧
      sys'.balances.traderNetwork = 7 ∧
      sys'.balances.beneficiaryNetwork = 8 ∧
      sys'.balances.vaultNetwork = 9) := by
  refine ⟨_, _, rfl, ?_⟩
  exact tradeBtToBt_network_token_frame 10000 0 0
    ⟨⟨500, 0, 7, 0, 0, 8, 2000, 2000, 9⟩,
      ⟨1000, 1000, 5000, ⟨1, 1⟩⟩, ⟨1000, 1000, 5000, ⟨1, 1⟩⟩⟩ _ 100 0 _ rfl

end BancorV3
